import Mathlib

/-!
Verification of the piezo tone-sequencer driver (src/piezo.c).

The driver keeps a fixed-capacity ring buffer of (frequency, duration)
samples, a 1 kHz tick state machine that plays them back, a timer
configuration routine translating a frequency into a toggle period, and a
startup sequencer that beeps out a revision byte.  We embed the C code
shallowly: the mutable globals become a `State` record, each C function
becomes a Lean function on `State`, machine integers become `Nat`
(with explicit `%` where the C wraps), and the hardware calls
(`nvic_enable_irq` / `nvic_disable_irq` / `timer_set_period`) become fields
of `State` recording the last programmed values.
-/

namespace Piezo

/-- One tone sample: `piezo_sample_t` (two `uint16_t` fields). -/
structure Sample where
  freq : Nat
  duration : Nat
deriving DecidableEq, Repr

/-- Modelled from the spec: `PIEZO_BUFFER_LEN` is defined in `piezo.h`,
which is not part of the sources; the spec (and the comment in
`piezo_init_beep`) fix the queue capacity at 32. -/
def PIEZO_BUFFER_LEN : Nat := 32

/-- The driver state: the static globals of piezo.c plus the observable
hardware state (whether the TIM3 interrupt is enabled and the last period
programmed into the timer).  `oob_writes` instruments the memcpy model:
it counts writes that land outside `sample_buffer` (in the C these are
out-of-bounds stores; in the model they leave the buffer unchanged but
are counted). -/
structure State where
  sample_buffer : List Sample
  buffer_free_pos : Nat
  buffer_cur_pos : Nat
  elapsed_piezo_time : Nat
  piezo_duration : Nat
  irq_enabled : Bool
  timer_period : Nat
  oob_writes : Nat
deriving DecidableEq, Repr

/-- State after `piezo_init`: zeroed globals, TIM3 interrupt disabled. -/
def initState : State :=
  { sample_buffer := List.replicate PIEZO_BUFFER_LEN ⟨0, 0⟩
    buffer_free_pos := 0
    buffer_cur_pos := 0
    elapsed_piezo_time := 0
    piezo_duration := 0
    irq_enabled := false
    timer_period := 1
    oob_writes := 0 }

/-- Embedding of `free_samples` (piezo.c lines 50-59): number of free
slots in the ringbuffer, computed from the two cursors. -/
def free_samples (st : State) : Nat :=
  if st.buffer_free_pos = st.buffer_cur_pos then
    PIEZO_BUFFER_LEN
  else if st.buffer_free_pos < st.buffer_cur_pos then
    st.buffer_cur_pos - st.buffer_free_pos
  else
    PIEZO_BUFFER_LEN - (st.buffer_free_pos - st.buffer_cur_pos)

/-- Embedding of `configure_piezo_timer` (lines 61-79): zero frequency disables the
interrupt; otherwise the frequency is clamped to 10 kHz, the toggle delay
is `1000000 / freq / 2` microseconds, and the interrupt is enabled. -/
def configure_piezo_timer (ps : Sample) (st : State) : State :=
  if ps.freq = 0 then
    { st with irq_enabled := false }
  else
    let freq := min 10000 ps.freq
    let delay := 1000000 / freq / 2
    { st with timer_period := delay, irq_enabled := true }

/-- Decoding of one 4-byte group `[freq:uint16][duration:uint16]`
(little-endian, as `memcpy` into `piezo_sample_t` lays it out on this
target).  The inputs are bytes (`uint8_t`), hence the `% 256`. -/
def decodeSample (b0 b1 b2 b3 : Nat) : Sample :=
  ⟨b0 % 256 + 256 * (b1 % 256), b2 % 256 + 256 * (b3 % 256)⟩

/-- Decode a byte stream into samples, 4 bytes at a time (a trailing
group of fewer than 4 bytes is never reached: `piezo_recv` rejects such
lengths before decoding). -/
def decodeSamples : List Nat → List Sample
  | b0 :: b1 :: b2 :: b3 :: rest => decodeSample b0 b1 b2 b3 :: decodeSamples rest
  | _ => []

/-- The `memcpy` of decoded samples into the buffer at consecutive raw
indices starting at `start` — exactly linear, no wrap-around, as in the C.
Returns the new buffer and the number of writes whose index fell outside
the buffer (out-of-bounds stores of the C `memcpy`). -/
def memcpyAt : List Sample → Nat → List Sample → List Sample × Nat
  | buf, _, [] => (buf, 0)
  | buf, start, s :: rest =>
      let r := memcpyAt (buf.set start s) (start + 1) rest
      (r.1, r.2 + (if start < buf.length then 0 else 1))

/-- First copy block of `piezo_recv` (lines 106-125): only when
`buffer_free_pos > buffer_cur_pos`, copy at most the samples that fit at
the back of the buffer and advance `buffer_free_pos` modulo the length.
Returns the updated state and the samples still to copy. -/
def recvCopyBack (st : State) (samples : List Sample) : State × List Sample :=
  if st.buffer_cur_pos < st.buffer_free_pos then
    let samples_at_back := PIEZO_BUFFER_LEN - st.buffer_free_pos
    let samples_to_copy := min samples_at_back samples.length
    let w := memcpyAt st.sample_buffer st.buffer_free_pos (samples.take samples_to_copy)
    ({ st with
        sample_buffer := w.1
        oob_writes := st.oob_writes + w.2
        buffer_free_pos := (st.buffer_free_pos + samples_to_copy) % PIEZO_BUFFER_LEN },
     samples.drop samples_to_copy)
  else
    (st, samples)

/-- Second copy block of `piezo_recv` (lines 127-140): if samples remain,
copy them at `buffer_free_pos` (linearly — the C does not wrap here) and
advance `buffer_free_pos` modulo the length. -/
def recvCopyFront (st : State) (samples : List Sample) : State :=
  if 0 < samples.length then
    let w := memcpyAt st.sample_buffer st.buffer_free_pos samples
    { st with
        sample_buffer := w.1
        oob_writes := st.oob_writes + w.2
        buffer_free_pos := (st.buffer_free_pos + samples.length) % PIEZO_BUFFER_LEN }
  else
    st

/-- Embedding of `piezo_recv` (lines 88-143).  Returns the C `bool` result and the new
state.  All three reject paths (`size == 0`, `size` not a multiple of 4,
burst does not fit) return `true` and leave the state untouched; the
success path copies in two blocks and returns `false`. -/
def piezo_recv (st : State) (data : List Nat) : Bool × State :=
  if data.length = 0 then
    (true, st)
  else if data.length % 4 ≠ 0 then
    (true, st)
  else if free_samples st ≤ data.length / 4 then
    (true, st)
  else
    let p := recvCopyBack st (decodeSamples data)
    (false, recvCopyFront p.1 p.2)

/-- Embedding of `piezo_tick` (lines 145-173), called at 1 kHz.  Note that the
"5ms silence" branch (line 154) does not return: it falls through to the
dequeue below it. -/
def piezo_tick (st : State) : State :=
  if st.elapsed_piezo_time < st.piezo_duration then
    { st with elapsed_piezo_time := st.elapsed_piezo_time + 1 }
  else
    let st1 :=
      if st.elapsed_piezo_time ≤ st.piezo_duration + 5 then
        { st with irq_enabled := false }
      else
        st
    if st1.buffer_free_pos = st1.buffer_cur_pos then
      { st1 with irq_enabled := false, elapsed_piezo_time := 0, piezo_duration := 0 }
    else
      let s := st1.sample_buffer.getD st1.buffer_cur_pos ⟨0, 0⟩
      let st2 := configure_piezo_timer s st1
      { st2 with
          piezo_duration := s.duration
          elapsed_piezo_time := 0
          buffer_cur_pos := (st2.buffer_cur_pos + 1) % PIEZO_BUFFER_LEN }

/-- Embedding of `fw_tones` (lines 176-177): the four startup tone frequencies. -/
def fw_tones : List Nat := [261, 196, 164, 130]

/-- Little-endian byte image of a sample, as `(uint8_t*)&samp` exposes it
to `piezo_recv` in `piezo_init_beep`. -/
def encodeSample (s : Sample) : List Nat :=
  [s.freq % 256, s.freq / 256 % 256, s.duration % 256, s.duration / 256 % 256]

/-- The sequence of samples `piezo_init_beep` pumps through `piezo_recv`
(lines 196-216): `tone_count[k]` is the k-th 2-bit field of the revision
byte; the loop runs most significant field first (`i = 0..3`, field
`3 - i`), and for each of `count` repetitions enqueues a 150 ms tone at
`fw_tones[3 - i]` followed by a 15 ms rest. -/
def beep_calls (dev_rev : Nat) : List Sample :=
  let tone_count : List Nat :=
    [dev_rev % 4, dev_rev / 4 % 4, dev_rev / 16 % 4, dev_rev / 64 % 4]
  (List.range 4).flatMap (fun i =>
    let count := tone_count.getD (3 - i) 0
    let tone_freq := fw_tones.getD (3 - i) 0
    (List.range count).flatMap (fun _ => [⟨tone_freq, 150⟩, ⟨0, 15⟩]))

/-- Embedding of `piezo_init_beep` (lines 179-220).  `SR_DEV_REV` is an external
constant (from a header not in the sources); we take it as the parameter
`r`, masked with `0xFF` as the C does.  Each sample of `beep_calls` is
pumped in through `piezo_recv` as 4 raw bytes. -/
def piezo_init_beep (r : Nat) (st : State) : State :=
  (beep_calls (r % 256)).foldl (fun st s => (piezo_recv st (encodeSample s)).2) st

/-- Specification-side description of the startup sequence, written from
the spec's words: the revision byte is split into four 2-bit fields,
processed most significant field first; a field of value `c` contributes
`c` repetitions of a 150 ms tone at that field's fixed frequency followed
by a 15 ms silence (frequency 0).  Compared against the code-side
`piezo_init_beep` in the refinement theorem. -/
def startup_spec_samples (r : Nat) : List Sample :=
  ([3, 2, 1, 0] : List Nat).flatMap (fun k =>
    (List.range (r / 4 ^ k % 4)).flatMap (fun _ =>
      [⟨fw_tones.getD k 0, 150⟩, ⟨0, 15⟩]))

/-- Reachability of driver states from the freshly initialised state by
any interleaving of ingestion calls and ticks, together with a ghost list
of the samples enqueued but not yet consumed: a rejected `piezo_recv`
leaves the list alone, an accepted one appends the decoded burst, and a
tick that takes the dequeue path (current sample finished and cursors
unequal) drops the head. -/
inductive Reach : State → List Sample → Prop
  | init : Reach initState []
  | recv : ∀ (st : State) (l : List Sample) (data : List Nat), Reach st l →
      Reach (piezo_recv st data).2
        (if (piezo_recv st data).1 then l else l ++ decodeSamples data)
  | tick : ∀ (st : State) (l : List Sample), Reach st l →
      Reach (piezo_tick st)
        (if st.piezo_duration ≤ st.elapsed_piezo_time ∧
            st.buffer_free_pos ≠ st.buffer_cur_pos
         then l.tail else l)

/-- The sample `piezo_tick` reads (line 168) when it takes the dequeue
path from state `st`. -/
def nextDequeued (st : State) : Sample :=
  st.sample_buffer.getD st.buffer_cur_pos ⟨0, 0⟩

/-- State after enqueuing the single sample {freq 440, duration 100}
into the fresh driver (the scenario of the spec's tick walkthrough). -/
def s440 : State := (piezo_recv initState (encodeSample ⟨440, 100⟩)).2

/-- Thirty distinct zero-duration samples used to walk the cursors to
position 30. -/
def batch1 : List Sample := (List.range 30).map (fun i => ⟨i + 1, 0⟩)

/-- State after enqueuing `batch1` into the fresh driver. -/
def stateAfterFill : State := (piezo_recv initState (batch1.flatMap encodeSample)).2

/-- State after thirty ticks have drained `batch1`: the queue is empty
with both cursors at 30, near the buffer boundary. -/
def stateDrained : State := piezo_tick^[30] stateAfterFill

/-- A four-sample burst enqueued at the drained state: its copy must
wrap around the buffer boundary. -/
def batch2 : List Sample := [⟨1001, 0⟩, ⟨1002, 0⟩, ⟨1003, 0⟩, ⟨1004, 0⟩]

/-- State after enqueuing `batch2` at the drained state. -/
def stateAfterWrap : State := (piezo_recv stateDrained (batch2.flatMap encodeSample)).2

/-! ## Helper lemmas -/

lemma decodeSamples_length : ∀ data : List Nat, (decodeSamples data).length = data.length / 4
  | [] => by simp [decodeSamples]
  | [_] => by simp [decodeSamples]
  | [_, _] => by simp [decodeSamples]
  | [_, _, _] => by simp [decodeSamples]
  | _ :: _ :: _ :: _ :: rest => by
      have ih := decodeSamples_length rest
      simp only [decodeSamples, List.length_cons, ih]
      omega

lemma free_samples_eq (st : State) (hf : st.buffer_free_pos < 32)
    (hc : st.buffer_cur_pos < 32) :
    free_samples st = 32 - (st.buffer_free_pos + 32 - st.buffer_cur_pos) % 32 := by
  simp only [free_samples, PIEZO_BUFFER_LEN]
  split_ifs <;> omega

lemma recv_rejects_of_le (st : State) (data : List Nat)
    (h : free_samples st ≤ data.length / 4) :
    piezo_recv st data = (true, st) := by
  unfold piezo_recv
  split_ifs <;> rfl

lemma recv_accepted_conds (st : State) (data : List Nat)
    (h : (piezo_recv st data).1 = false) :
    data.length ≠ 0 ∧ data.length % 4 = 0 ∧ data.length / 4 < free_samples st := by
  unfold piezo_recv at h
  split_ifs at h with h1 h2 h3
  exact ⟨h1, not_not.mp h2, not_le.mp h3⟩

lemma recv_rejected_eq (st : State) (data : List Nat)
    (h : (piezo_recv st data).1 = true) :
    (piezo_recv st data).2 = st := by
  unfold piezo_recv at *
  split_ifs at h ⊢ <;> simp_all

lemma recv_accepts (st : State) (data : List Nat)
    (h0 : data.length ≠ 0) (h4 : data.length % 4 = 0)
    (hlt : data.length / 4 < free_samples st) :
    piezo_recv st data =
      (false,
        recvCopyFront (recvCopyBack st (decodeSamples data)).1
          (recvCopyBack st (decodeSamples data)).2) := by
  unfold piezo_recv
  rw [if_neg h0, if_neg (by simp [h4]), if_neg (not_le.mpr hlt)]

lemma recvCopyBack_cur (st : State) (samples : List Sample) :
    (recvCopyBack st samples).1.buffer_cur_pos = st.buffer_cur_pos := by
  unfold recvCopyBack
  split <;> rfl

lemma recvCopyFront_cur (st : State) (samples : List Sample) :
    (recvCopyFront st samples).buffer_cur_pos = st.buffer_cur_pos := by
  unfold recvCopyFront
  split <;> rfl

lemma recv_snd_cur (st : State) (data : List Nat) :
    (piezo_recv st data).2.buffer_cur_pos = st.buffer_cur_pos := by
  unfold piezo_recv
  split_ifs <;> simp [recvCopyFront_cur, recvCopyBack_cur]

lemma copy_free_pos (st : State) (samples : List Sample)
    (hf : st.buffer_free_pos < 32) :
    (recvCopyFront (recvCopyBack st samples).1
        (recvCopyBack st samples).2).buffer_free_pos
      = (st.buffer_free_pos + samples.length) % 32 := by
  simp only [recvCopyBack, recvCopyFront, PIEZO_BUFFER_LEN]
  split_ifs <;> simp_all [List.length_take, List.length_drop] <;> omega

lemma recv_free_pos (st : State) (data : List Nat)
    (hf : st.buffer_free_pos < 32)
    (hacc : (piezo_recv st data).1 = false) :
    (piezo_recv st data).2.buffer_free_pos
      = (st.buffer_free_pos + data.length / 4) % 32 := by
  obtain ⟨h0, h4, hlt⟩ := recv_accepted_conds st data hacc
  rw [recv_accepts st data h0 h4 hlt]
  have := copy_free_pos st (decodeSamples data) hf
  rw [decodeSamples_length] at this
  exact this

lemma piezo_tick_cursors (st : State) :
    (piezo_tick st).buffer_free_pos = st.buffer_free_pos ∧
    (piezo_tick st).buffer_cur_pos =
      (if st.piezo_duration ≤ st.elapsed_piezo_time ∧
          st.buffer_free_pos ≠ st.buffer_cur_pos
       then (st.buffer_cur_pos + 1) % 32 else st.buffer_cur_pos) := by
  simp only [piezo_tick, configure_piezo_timer, PIEZO_BUFFER_LEN]
  split_ifs <;> simp_all
  all_goals omega

lemma reach_inv {st : State} {l : List Sample} (h : Reach st l) :
    st.buffer_free_pos < 32 ∧ st.buffer_cur_pos < 32 ∧
    (st.buffer_free_pos + 32 - st.buffer_cur_pos) % 32 = l.length := by
  induction h with
  | init => decide
  | recv st l data hr ih =>
      obtain ⟨hf, hc, hd⟩ := ih
      cases hb : (piezo_recv st data).1 with
      | true =>
          simp only [hb, if_true, recv_rejected_eq st data hb]
          exact ⟨hf, hc, hd⟩
      | false =>
          obtain ⟨h0, h4, hlt⟩ := recv_accepted_conds st data hb
          have hfree := recv_free_pos st data hf hb
          have hcur := recv_snd_cur st data
          have hfs := free_samples_eq st hf hc
          simp only [hb, if_false, Bool.false_eq_true, List.length_append,
            decodeSamples_length, hfree, hcur]
          refine ⟨by omega, by omega, by omega⟩
  | tick st l hr ih =>
      obtain ⟨hf, hc, hd⟩ := ih
      obtain ⟨tf, tc⟩ := piezo_tick_cursors st
      by_cases hcond : st.piezo_duration ≤ st.elapsed_piezo_time ∧
          st.buffer_free_pos ≠ st.buffer_cur_pos
      · have hne : st.buffer_free_pos ≠ st.buffer_cur_pos := hcond.2
        rw [tf, tc, if_pos hcond, if_pos hcond]
        have hlen : l.length ≠ 0 := by omega
        refine ⟨by omega, by omega, ?_⟩
        rw [List.length_tail]
        omega
      · rw [tf, tc, if_neg hcond, if_neg hcond]
        exact ⟨hf, hc, hd⟩

lemma reach_ticks (n : Nat) {st : State} {l : List Sample} (h : Reach st l) :
    ∃ m, Reach (piezo_tick^[n] st) m := by
  induction n with
  | zero => exact ⟨l, h⟩
  | succ k ih =>
      obtain ⟨m, hm⟩ := ih
      rw [Function.iterate_succ_apply']
      exact ⟨_, Reach.tick _ m hm⟩

/-! ## Claim theorems -/

set_option maxRecDepth 20000

/-- C1: the claimed five-tick inter-note gap does not exist in the code.
After enqueuing the single sample {freq 440, duration 100} into the fresh
driver, the square-wave interrupt is still enabled on tick 101, and on
tick 102 — the very tick on which the gap branch first fires — the
scheduler has already dequeued (found the queue empty) and reset to Idle;
the state is unchanged from tick 102 through tick 106.  The claim instead
requires the generator merely disabled on ticks 101-105 and the Idle
transition on tick 106. -/
theorem gap_skipped_idle_on_tick_102 :
    (piezo_tick^[101] s440).irq_enabled = true ∧
    (piezo_tick^[101] s440).elapsed_piezo_time = 100 ∧
    (piezo_tick^[102] s440).elapsed_piezo_time = 0 ∧
    (piezo_tick^[102] s440).piezo_duration = 0 ∧
    (piezo_tick^[102] s440).irq_enabled = false ∧
    (piezo_tick^[102] s440).buffer_free_pos = (piezo_tick^[102] s440).buffer_cur_pos ∧
    (piezo_tick^[106] s440).elapsed_piezo_time = 0 ∧
    (piezo_tick^[106] s440).piezo_duration = 0 ∧
    (piezo_tick^[106] s440).irq_enabled = false := by decide

/-- C2: a successfully accepted burst can write outside the buffer.
`stateDrained` is reachable (enqueue 30 samples, tick 30 times) and has
both cursors at 30 with the queue empty; the four-sample burst `batch2`
is then accepted, but because the wrap-handling block only runs when
`buffer_free_pos > buffer_cur_pos`, two of its memcpy stores land at raw
indices 32 and 33 — outside the 32-slot buffer. -/
theorem enqueue_writes_out_of_bounds :
    (∃ l, Reach stateDrained l) ∧
    stateDrained.buffer_free_pos = 30 ∧
    stateDrained.buffer_cur_pos = 30 ∧
    stateDrained.oob_writes = 0 ∧
    (piezo_recv stateDrained (batch2.flatMap encodeSample)).1 = false ∧
    stateAfterWrap.oob_writes = 2 := by
  refine ⟨?_, by decide, by decide, by decide, by decide, by decide⟩
  show ∃ l, Reach (piezo_tick^[30] (piezo_recv initState (batch1.flatMap encodeSample)).2) l
  exact reach_ticks 30
    (Reach.recv initState [] (batch1.flatMap encodeSample) Reach.init)

/-- C3 counterexample: at the concrete empty state (the freshly
initialised driver, `write_pos = read_pos = 0`), `free_samples` returns
32, not the claimed `N - 1 = 31`. -/
theorem free_samples_empty_ne_31 :
    initState.buffer_free_pos = initState.buffer_cur_pos ∧
    free_samples initState = 32 ∧ free_samples initState ≠ 31 := by decide

/-- C3 amended: `free_samples` counts the permanently reserved slot — it
returns `N = 32` when the queue is empty — and the number of additional
samples that can actually be accepted is `free_samples() - 1`, because
`piezo_recv` accepts a burst of `n ≥ 1` samples exactly when
`n < free_samples()`. -/
theorem free_samples_counts_reserved_slot :
    (∀ st : State, st.buffer_free_pos = st.buffer_cur_pos → free_samples st = 32) ∧
    (∀ (st : State) (data : List Nat) (n : Nat),
        st.buffer_free_pos < 32 → st.buffer_cur_pos < 32 →
        data.length = 4 * n → 1 ≤ n →
        ((piezo_recv st data).1 = false ↔ n < free_samples st)) := by
  constructor
  · intro st h
    simp [free_samples, h, PIEZO_BUFFER_LEN]
  · intro st data n hf hc hlen hn
    constructor
    · intro hacc
      have := (recv_accepted_conds st data hacc).2.2
      omega
    · intro hlt
      rw [recv_accepts st data (by omega) (by omega) (by omega)]

/-- C3 witness: the amended statement evaluated at the fresh driver and a
one-sample burst. -/
theorem free_samples_reserved_slot_witness :
    free_samples initState = 32 ∧
    ((piezo_recv initState (encodeSample ⟨440, 100⟩)).1 = false ↔
      1 < free_samples initState) :=
  ⟨free_samples_counts_reserved_slot.1 initState rfl,
   free_samples_counts_reserved_slot.2 initState (encodeSample ⟨440, 100⟩) 1
     (by decide) (by decide) (by decide) (by decide)⟩

/-- C4: a burst whose implied sample count is at least `free_samples()`
is rejected atomically — the call returns the reject value and the entire
state (cursors and buffer contents) is exactly as before. -/
theorem recv_reject_atomic (st : State) (data : List Nat)
    (h : free_samples st ≤ data.length / 4) :
    piezo_recv st data = (true, st) :=
  recv_rejects_of_le st data h

/-- C4 witness: a 32-sample burst aimed at the empty queue is rejected
with the state untouched. -/
theorem recv_reject_atomic_witness :
    free_samples initState ≤ (List.replicate 128 (0 : Nat)).length / 4 ∧
    piezo_recv initState (List.replicate 128 (0 : Nat)) = (true, initState) :=
  ⟨by decide, recv_reject_atomic initState (List.replicate 128 (0 : Nat)) (by decide)⟩

/-- C5: a valid burst of `n` samples with `n < free_samples()` is
accepted, advances `buffer_free_pos` by `n` modulo 32, and decreases
`free_samples()` by exactly `n`. -/
theorem recv_success_decreases_capacity (st : State) (data : List Nat) (n : Nat)
    (hf : st.buffer_free_pos < 32) (hc : st.buffer_cur_pos < 32)
    (hlen : data.length = 4 * n) (hn : 1 ≤ n) (hcap : n < free_samples st) :
    (piezo_recv st data).1 = false ∧
    (piezo_recv st data).2.buffer_free_pos = (st.buffer_free_pos + n) % 32 ∧
    free_samples (piezo_recv st data).2 = free_samples st - n := by
  have hacc : (piezo_recv st data).1 = false := by
    rw [recv_accepts st data (by omega) (by omega) (by omega)]
  have hfree := recv_free_pos st data hf hacc
  have hcur := recv_snd_cur st data
  have hfs := free_samples_eq st hf hc
  have hdiv : data.length / 4 = n := by omega
  rw [hdiv] at hfree
  refine ⟨hacc, hfree, ?_⟩
  have hf2 : (piezo_recv st data).2.buffer_free_pos < 32 := by omega
  have hc2 : (piezo_recv st data).2.buffer_cur_pos < 32 := by omega
  rw [free_samples_eq (piezo_recv st data).2 hf2 hc2, hfree, hcur, hfs]
  omega

/-- C5 witness: one sample into the fresh driver — accepted, cursor moves
to 1, free count drops from 32 to 31. -/
theorem recv_success_witness :
    (piezo_recv initState (encodeSample ⟨440, 100⟩)).1 = false ∧
    (piezo_recv initState (encodeSample ⟨440, 100⟩)).2.buffer_free_pos
      = (initState.buffer_free_pos + 1) % 32 ∧
    free_samples (piezo_recv initState (encodeSample ⟨440, 100⟩)).2
      = free_samples initState - 1 :=
  recv_success_decreases_capacity initState (encodeSample ⟨440, 100⟩) 1
    (by decide) (by decide) (by decide) (by decide) (by decide)

/-- C6 counterexample: a zero-length input returns exactly the same
result value (`true`) as a malformed-length rejection, so it is not
distinguishable from one; only a successful enqueue returns `false`. -/
theorem zero_length_reports_rejection_value :
    (piezo_recv initState []).1 = true ∧
    (piezo_recv initState [0, 0, 0]).1 = true ∧
    (piezo_recv initState []).1 = (piezo_recv initState [0, 0, 0]).1 ∧
    (piezo_recv initState (encodeSample ⟨440, 100⟩)).1 = false := by decide

/-- C6 amended: any length that is not a positive multiple of 4 — and
likewise a zero-length input — is a no-op: `piezo_recv` returns the same
reject value `true` with the state untouched (the zero-length call is not
distinguishable from a rejection by its result). -/
theorem invalid_or_empty_length_no_op (st : State) (data : List Nat)
    (h : data.length % 4 ≠ 0 ∨ data.length = 0) :
    piezo_recv st data = (true, st) := by
  unfold piezo_recv
  split_ifs with h1 h2 h3
  · rfl
  · rfl
  · rfl
  · have h2' := not_not.mp h2
    rcases h with h | h
    · exact absurd h2' h
    · exact absurd h h1

/-- C6 witness: a three-byte input is rejected with the state
untouched. -/
theorem invalid_length_witness :
    (List.length ([0, 0, 0] : List Nat) % 4 ≠ 0 ∨
      List.length ([0, 0, 0] : List Nat) = 0) ∧
    piezo_recv initState [0, 0, 0] = (true, initState) :=
  ⟨Or.inl (by decide),
   invalid_or_empty_length_no_op initState [0, 0, 0] (Or.inl (by decide))⟩

/-- C7: in every reachable state, at most 31 samples are occupied, and
the cursors are equal exactly when the queue of enqueued-but-unconsumed
samples is empty (cursor equality never means full). -/
theorem queue_occupancy_invariant (st : State) (l : List Sample)
    (h : Reach st l) :
    l.length ≤ 31 ∧ (st.buffer_free_pos = st.buffer_cur_pos ↔ l = []) := by
  obtain ⟨hf, hc, hd⟩ := reach_inv h
  constructor
  · omega
  · rw [← List.length_eq_zero]
    omega

/-- C7 witness: the invariant evaluated at the initial state. -/
theorem queue_occupancy_witness :
    ([] : List Sample).length ≤ 31 ∧
    (initState.buffer_free_pos = initState.buffer_cur_pos ↔
      ([] : List Sample) = []) :=
  queue_occupancy_invariant initState [] Reach.init

/-- C8: FIFO order is broken by the out-of-bounds enqueue.  At the
reachable state `stateDrained` (cursors at 30, queue empty) the burst
`batch2` = [(1001,0), (1002,0), (1003,0), (1004,0)] is accepted, yet the
next four samples the dequeue path reads are (1001,0), (1002,0), (1,0),
(2,0): the third and fourth enqueued samples were written past the end of
the buffer, and stale samples from the earlier fill are played instead. -/
theorem fifo_order_broken_after_wrap :
    decodeSamples (batch2.flatMap encodeSample) = batch2 ∧
    stateAfterWrap.buffer_cur_pos = 30 ∧
    stateAfterWrap.piezo_duration = 0 ∧
    nextDequeued stateAfterWrap = ⟨1001, 0⟩ ∧
    nextDequeued (piezo_tick stateAfterWrap) = ⟨1002, 0⟩ ∧
    nextDequeued (piezo_tick^[2] stateAfterWrap) = ⟨1, 0⟩ ∧
    nextDequeued (piezo_tick^[3] stateAfterWrap) = ⟨2, 0⟩ ∧
    [nextDequeued stateAfterWrap, nextDequeued (piezo_tick stateAfterWrap),
     nextDequeued (piezo_tick^[2] stateAfterWrap),
     nextDequeued (piezo_tick^[3] stateAfterWrap)] ≠ batch2 := by decide

/-- C9: `configure_piezo_timer` with frequency 0 disables the interrupt
and leaves the period alone; with a nonzero frequency it enables the
interrupt and programs period `1000000 / min f 10000 / 2`; any frequency
at or above the 10 kHz clamp programs the driver state identically to
exactly 10 kHz. -/
theorem configure_clamps_and_disables :
    (∀ (st : State) (d : Nat),
        (configure_piezo_timer ⟨0, d⟩ st).irq_enabled = false ∧
        (configure_piezo_timer ⟨0, d⟩ st).timer_period = st.timer_period) ∧
    (∀ (st : State) (f d : Nat), f ≠ 0 →
        (configure_piezo_timer ⟨f, d⟩ st).irq_enabled = true ∧
        (configure_piezo_timer ⟨f, d⟩ st).timer_period
          = 1000000 / min f 10000 / 2) ∧
    (∀ (st : State) (f d : Nat), 10000 ≤ f →
        configure_piezo_timer ⟨f, d⟩ st = configure_piezo_timer ⟨10000, d⟩ st) := by
  refine ⟨fun st d => ⟨rfl, rfl⟩, fun st f d hf => ?_, fun st f d hf => ?_⟩
  · unfold configure_piezo_timer
    rw [if_neg hf]
    exact ⟨rfl, by rw [Nat.min_comm]⟩
  · have h0 : f ≠ 0 := by omega
    have hmin : min 10000 f = 10000 := by omega
    simp only [configure_piezo_timer]
    rw [if_neg h0, hmin]
    norm_num

/-- C9 witness: frequency 0 disables; 50000 Hz programs the same period
as exactly 10000 Hz. -/
theorem configure_clamp_witness :
    ((configure_piezo_timer ⟨0, 100⟩ initState).irq_enabled = false ∧
     (configure_piezo_timer ⟨0, 100⟩ initState).timer_period
       = initState.timer_period) ∧
    ((50000 : Nat) ≠ 0 ∧
     (configure_piezo_timer ⟨50000, 100⟩ initState).timer_period
       = 1000000 / min 50000 10000 / 2) ∧
    (10000 ≤ 50000 ∧
     configure_piezo_timer ⟨50000, 100⟩ initState
       = configure_piezo_timer ⟨10000, 100⟩ initState) :=
  ⟨configure_clamps_and_disables.1 initState 100,
   ⟨by decide, (configure_clamps_and_disables.2.1 initState 50000 100 (by decide)).2⟩,
   by decide, configure_clamps_and_disables.2.2 initState 50000 100 (by decide)⟩

/-- C10: for every revision byte, running the startup sequencer on the
fresh driver leaves the read cursor at 0, the write cursor at the length
of the spec-side sample sequence, and the buffer prefix equal to that
sequence — `c` repetitions of (150 ms tone, 15 ms silence) per 2-bit
field, most significant field first — with no out-of-bounds write. -/
theorem startup_sequence_refines_spec :
    ∀ r : Nat, r < 256 →
      (piezo_init_beep r initState).buffer_cur_pos = 0 ∧
      (piezo_init_beep r initState).buffer_free_pos
        = (startup_spec_samples r).length ∧
      (piezo_init_beep r initState).sample_buffer.take
          (startup_spec_samples r).length = startup_spec_samples r ∧
      (piezo_init_beep r initState).oob_writes = 0 := by decide

/-- C10 witness: revision byte 0b01101100 = 108 (fields MSB first:
1, 2, 3, 0) yields exactly the 12 samples 1×(130 Hz tone + rest),
2×(164 Hz tone + rest), 3×(196 Hz tone + rest), in that order. -/
theorem startup_sequence_108_witness :
    (108 : Nat) < 256 ∧
    startup_spec_samples 108 =
      [⟨130, 150⟩, ⟨0, 15⟩, ⟨164, 150⟩, ⟨0, 15⟩, ⟨164, 150⟩, ⟨0, 15⟩,
       ⟨196, 150⟩, ⟨0, 15⟩, ⟨196, 150⟩, ⟨0, 15⟩, ⟨196, 150⟩, ⟨0, 15⟩] ∧
    ((piezo_init_beep 108 initState).buffer_cur_pos = 0 ∧
     (piezo_init_beep 108 initState).buffer_free_pos
       = (startup_spec_samples 108).length ∧
     (piezo_init_beep 108 initState).sample_buffer.take
         (startup_spec_samples 108).length = startup_spec_samples 108 ∧
     (piezo_init_beep 108 initState).oob_writes = 0) :=
  ⟨by decide, by decide, startup_sequence_refines_spec 108 (by decide)⟩

end Piezo
